import Mathlib

/-!
Shallow embedding of the paint application in `Source.cpp` (wxWidgets
paint app): shape model (`Circle`, `Square`, `FreehandLine`), the
device-context draw calls each shape emits, and the `PaintCanvas`
state with its pointer-event handlers and mode-setting operations.
The toolkit's `rand()` is modelled by explicitly injected channel
values, reduced modulo 256 exactly as the source does.
-/

namespace PaintApp

/-- An RGB color triple (`wxColor`). -/
structure Color where
  r : Nat
  g : Nat
  b : Nat
deriving DecidableEq, Repr

/-- The color `*wxBLACK`. -/
def blackColor : Color := ⟨0, 0, 0⟩

/-- The fixed eraser color `*wxWHITE`. -/
def whiteColor : Color := ⟨255, 255, 255⟩

/-- An integer screen position (`wxPoint`). -/
structure Point where
  x : Int
  y : Int
deriving DecidableEq, Repr

/-- Commands issued against a `wxDC` device context. `setBrush` and
`setPen` are state-setting calls; the other three are the drawing
primitives. -/
inductive DCCommand where
  | setBrush (c : Color)
  | setPen (c : Color) (width : Nat)
  | drawCircle (center : Point) (radius : Int)
  | drawRectangle (topLeft : Point) (w : Int) (h : Int)
  | drawLines (pts : List Point)
deriving DecidableEq, Repr

/-- Whether a device-context command is a drawing primitive (as opposed
to a pen/brush selection). -/
def DCCommand.isDrawPrim : DCCommand → Bool
  | .drawCircle _ _ => true
  | .drawRectangle _ _ _ => true
  | .drawLines _ => true
  | _ => false

/-- The consecutive segments of a polyline, in point order: `wxDC::DrawLines`
on points `p0 … p(n-1)` draws the segments `(p0,p1), (p1,p2), …`. -/
def polylineSegments : List Point → List (Point × Point)
  | p :: q :: rest => (p, q) :: polylineSegments (q :: rest)
  | _ => []

/-- Embeds `class Circle`: center, radius and color, geometry immutable. -/
structure Circle where
  center : Point
  radius : Int
  color : Color
deriving DecidableEq, Repr

/-- Embeds `Circle::Draw`: set the brush to the circle's color, then one
`DrawCircle` call. -/
def Circle.Draw (c : Circle) : List DCCommand :=
  [DCCommand.setBrush c.color, DCCommand.drawCircle c.center c.radius]

/-- Embeds `class Square`: top-left corner, side length and color. -/
structure Square where
  topLeft : Point
  sideLength : Int
  color : Color
deriving DecidableEq, Repr

/-- Embeds `Square::Draw`: set the brush, then one `DrawRectangle` call with a
square `wxSize`. -/
def Square.Draw (s : Square) : List DCCommand :=
  [DCCommand.setBrush s.color, DCCommand.drawRectangle s.topLeft s.sideLength s.sideLength]

/-- Embeds `class FreehandLine`: an ordered point sequence, a color and the
line's own rainbow flag. -/
structure FreehandLine where
  points : List Point
  color : Color
  rainbowMode : Bool
deriving DecidableEq, Repr

/-- The constructor `FreehandLine(color, rainbowMode)`: empty point
sequence (the C++ default argument makes `rainbowMode` false when the
caller omits it, as the eraser branch does). -/
def FreehandLine.new (color : Color) (rainbowMode : Bool) : FreehandLine :=
  ⟨[], color, rainbowMode⟩

/-- Embeds `FreehandLine::AddPoint`: `points.push_back(point)`. -/
def FreehandLine.AddPoint (l : FreehandLine) (p : Point) : FreehandLine :=
  { l with points := l.points ++ [p] }

/-- Embeds `FreehandLine::Draw`: set the pen (color, width 2), then a single
`DrawLines` over the whole point sequence when `points.size() > 1`,
and nothing otherwise. -/
def FreehandLine.Draw (l : FreehandLine) : List DCCommand :=
  [DCCommand.setPen l.color 2] ++
    (if l.points.length > 1 then [DCCommand.drawLines l.points] else [])

/-- Embeds `FreehandLine::UpdateRainbowColor`: when the line's own flag is set,
replace the color by `wxColor(rand() % 256, rand() % 256, rand() % 256)`;
the three `rand()` draws are injected as `r1 r2 r3`. No effect when the
flag is clear. -/
def FreehandLine.UpdateRainbowColor (l : FreehandLine) (r1 r2 r3 : Nat) : FreehandLine :=
  if l.rainbowMode then { l with color := ⟨r1 % 256, r2 % 256, r3 % 256⟩ } else l

/-- The polymorphic `Shape` hierarchy. -/
inductive Shape where
  | circle (c : Circle)
  | square (s : Square)
  | line (l : FreehandLine)
deriving DecidableEq, Repr

/-- Virtual dispatch of `Shape::Draw`. -/
def Shape.Draw : Shape → List DCCommand
  | .circle c => c.Draw
  | .square s => s.Draw
  | .line l => l.Draw

/-- Embeds `class PaintCanvas`: committed shapes, the three in-progress slots,
the current color, the four mode flags and the fixed stamp size. -/
structure PaintCanvas where
  shapes : List Shape
  currentLine : Option FreehandLine
  currentCircle : Option Circle
  currentSquare : Option Square
  currentColor : Color
  rainbowMode : Bool
  eraserMode : Bool
  circleMode : Bool
  squareMode : Bool
  shapeSize : Int
deriving DecidableEq, Repr

/-- The `PaintCanvas` constructor together with the in-class field
initializers: all slots null, all mode flags false, `shapeSize = 50`,
`currentColor = *wxBLACK`, empty shape list. -/
def PaintCanvas.init : PaintCanvas :=
  { shapes := []
    currentLine := none
    currentCircle := none
    currentSquare := none
    currentColor := blackColor
    rainbowMode := false
    eraserMode := false
    circleMode := false
    squareMode := false
    shapeSize := 50 }

/-- Embeds `PaintCanvas::OnLeftDown`. The stamp branches allocate the shape,
push it into `shapes` and immediately reset the slot to null, so their
net effect on the slot is `none`; the freehand branches overwrite
`currentLine`. The trailing `if (currentLine) currentLine->AddPoint(...)`
applies to whatever `currentLine` holds after the branch. -/
def PaintCanvas.OnLeftDown (s : PaintCanvas) (pos : Point) : PaintCanvas :=
  let s1 :=
    if s.circleMode then
      { s with shapes := s.shapes ++ [Shape.circle ⟨pos, s.shapeSize, s.currentColor⟩]
               currentCircle := none }
    else if s.squareMode then
      { s with shapes := s.shapes ++ [Shape.square ⟨pos, s.shapeSize, s.currentColor⟩]
               currentSquare := none }
    else if s.eraserMode then
      { s with currentLine := some (FreehandLine.new whiteColor false) }
    else
      { s with currentLine := some (FreehandLine.new s.currentColor s.rainbowMode) }
  match s1.currentLine with
  | some l => { s1 with currentLine := some (l.AddPoint pos) }
  | none => s1

/-- Embeds `PaintCanvas::OnLeftUp`: if a line is in progress, append the final
position, commit the line into `shapes` and clear the slot; otherwise
nothing (only a redraw request). -/
def PaintCanvas.OnLeftUp (s : PaintCanvas) (pos : Point) : PaintCanvas :=
  match s.currentLine with
  | some l =>
      { s with shapes := s.shapes ++ [Shape.line (l.AddPoint pos)]
               currentLine := none }
  | none => s

/-- Embeds `PaintCanvas::OnMouseMove`: only when a line is in progress; if the
canvas rainbow flag is set, `UpdateRainbowColor` first (with the three
injected `rand()` draws), then append the position. -/
def PaintCanvas.OnMouseMove (s : PaintCanvas) (pos : Point) (r1 r2 r3 : Nat) : PaintCanvas :=
  match s.currentLine with
  | some l =>
      let l1 := if s.rainbowMode then l.UpdateRainbowColor r1 r2 r3 else l
      { s with currentLine := some (l1.AddPoint pos) }
  | none => s

/-- Draw calls of an optional in-progress shape slot in `OnPaint`. -/
def drawOptLine : Option FreehandLine → List DCCommand
  | some l => l.Draw
  | none => []

/-- Draw calls of the `currentCircle` slot in `OnPaint`. -/
def drawOptCircle : Option Circle → List DCCommand
  | some c => c.Draw
  | none => []

/-- Draw calls of the `currentSquare` slot in `OnPaint`. -/
def drawOptSquare : Option Square → List DCCommand
  | some q => q.Draw
  | none => []

/-- Embeds `PaintCanvas::OnPaint`: every committed shape in insertion order,
then the in-progress line, circle and square slots (when non-null). -/
def PaintCanvas.OnPaint (s : PaintCanvas) : List DCCommand :=
  (s.shapes.map Shape.Draw).flatten
    ++ drawOptLine s.currentLine
    ++ drawOptCircle s.currentCircle
    ++ drawOptSquare s.currentSquare

/-- Embeds `PaintCanvas::SetColor`: store the color and clear all four mode
flags. -/
def PaintCanvas.SetColor (s : PaintCanvas) (c : Color) : PaintCanvas :=
  { s with currentColor := c
           eraserMode := false
           rainbowMode := false
           circleMode := false
           squareMode := false }

/-- Embeds `PaintCanvas::EnableRainbowMode`: set the rainbow flag and clear
the circle and square flags; the source does not touch `eraserMode`. -/
def PaintCanvas.EnableRainbowMode (s : PaintCanvas) : PaintCanvas :=
  { s with rainbowMode := true
           circleMode := false
           squareMode := false }

/-- Embeds `PaintCanvas::EnableEraserMode`: set the eraser flag and clear the
circle and square flags; the source does not touch `rainbowMode`. -/
def PaintCanvas.EnableEraserMode (s : PaintCanvas) : PaintCanvas :=
  { s with eraserMode := true
           circleMode := false
           squareMode := false }

/-- Embeds `PaintCanvas::EnableCircleMode`: set the circle flag and clear the
other three. -/
def PaintCanvas.EnableCircleMode (s : PaintCanvas) : PaintCanvas :=
  { s with circleMode := true
           eraserMode := false
           rainbowMode := false
           squareMode := false }

/-- Embeds `PaintCanvas::EnableSquareMode`: set the square flag and clear the
other three. -/
def PaintCanvas.EnableSquareMode (s : PaintCanvas) : PaintCanvas :=
  { s with squareMode := true
           eraserMode := false
           rainbowMode := false
           circleMode := false }

/-- A pointer-move event with its three injected `rand()` draws. -/
structure MoveEvent where
  pos : Point
  r1 : Nat
  r2 : Nat
  r3 : Nat
deriving DecidableEq, Repr

/-- Run a sequence of pointer-move events. -/
def PaintCanvas.runMoves (s : PaintCanvas) (ms : List MoveEvent) : PaintCanvas :=
  ms.foldl (fun st m => st.OnMouseMove m.pos m.r1 m.r2 m.r3) s

/-- Events that can be delivered to the canvas while a stroke is in
progress: pointer moves and the menu-driven mode/color operations. -/
inductive CanvasEvent where
  | move (m : MoveEvent)
  | setColor (c : Color)
  | rainbowOn
  | eraserOn
  | circleOn
  | squareOn
deriving DecidableEq, Repr

/-- Apply one canvas event. -/
def PaintCanvas.stepEvent (s : PaintCanvas) : CanvasEvent → PaintCanvas
  | .move m => s.OnMouseMove m.pos m.r1 m.r2 m.r3
  | .setColor c => s.SetColor c
  | .rainbowOn => s.EnableRainbowMode
  | .eraserOn => s.EnableEraserMode
  | .circleOn => s.EnableCircleMode
  | .squareOn => s.EnableSquareMode

/-- Apply a sequence of canvas events. -/
def PaintCanvas.runEvents (s : PaintCanvas) (evs : List CanvasEvent) : PaintCanvas :=
  evs.foldl PaintCanvas.stepEvent s

/-! Helper lemmas about the event handlers. -/

theorem polylineSegments_length_cons (p : Point) (rest : List Point) :
    (polylineSegments (p :: rest)).length = rest.length := by
  induction rest generalizing p with
  | nil => rfl
  | cons q rs ih => simp [polylineSegments, ih]

theorem polylineSegments_length (ps : List Point) :
    (polylineSegments ps).length = ps.length - 1 := by
  cases ps with
  | nil => rfl
  | cons p rest => simp [polylineSegments_length_cons]

theorem polylineSegments_eq_zip (ps : List Point) :
    polylineSegments ps = ps.zip ps.tail := by
  induction ps with
  | nil => rfl
  | cons p rest ih =>
    cases rest with
    | nil => rfl
    | cons q rs => simp [polylineSegments, ih]

theorem OnMouseMove_none (s : PaintCanvas) (pos : Point) (r1 r2 r3 : Nat)
    (h : s.currentLine = none) : s.OnMouseMove pos r1 r2 r3 = s := by
  simp [PaintCanvas.OnMouseMove, h]

theorem OnMouseMove_shapes (s : PaintCanvas) (pos : Point) (r1 r2 r3 : Nat) :
    (s.OnMouseMove pos r1 r2 r3).shapes = s.shapes := by
  cases h : s.currentLine <;> simp [PaintCanvas.OnMouseMove, h]

theorem OnMouseMove_isSome (s : PaintCanvas) (pos : Point) (r1 r2 r3 : Nat) :
    (s.OnMouseMove pos r1 r2 r3).currentLine.isSome = s.currentLine.isSome := by
  cases h : s.currentLine <;> simp [PaintCanvas.OnMouseMove, h]

theorem runMoves_cons (s : PaintCanvas) (m : MoveEvent) (ms : List MoveEvent) :
    s.runMoves (m :: ms) = (s.OnMouseMove m.pos m.r1 m.r2 m.r3).runMoves ms := rfl

theorem runMoves_none (s : PaintCanvas) (ms : List MoveEvent)
    (h : s.currentLine = none) : s.runMoves ms = s := by
  induction ms generalizing s with
  | nil => rfl
  | cons m rest ih =>
    rw [runMoves_cons, OnMouseMove_none s m.pos m.r1 m.r2 m.r3 h]
    exact ih s h

theorem runMoves_shapes (s : PaintCanvas) (ms : List MoveEvent) :
    (s.runMoves ms).shapes = s.shapes := by
  induction ms generalizing s with
  | nil => rfl
  | cons m rest ih =>
    rw [runMoves_cons, ih, OnMouseMove_shapes]

theorem runMoves_isSome (s : PaintCanvas) (ms : List MoveEvent) :
    (s.runMoves ms).currentLine.isSome = s.currentLine.isSome := by
  induction ms generalizing s with
  | nil => rfl
  | cons m rest ih =>
    rw [runMoves_cons, ih, OnMouseMove_isSome]

theorem OnLeftUp_none (s : PaintCanvas) (pos : Point)
    (h : s.currentLine = none) : s.OnLeftUp pos = s := by
  simp [PaintCanvas.OnLeftUp, h]

theorem OnLeftUp_some (s : PaintCanvas) (pos : Point) (l : FreehandLine)
    (h : s.currentLine = some l) :
    (s.OnLeftUp pos).shapes = s.shapes ++ [Shape.line (l.AddPoint pos)] ∧
    (s.OnLeftUp pos).currentLine = none := by
  constructor <;> simp [PaintCanvas.OnLeftUp, h]

theorem OnLeftDown_circle_case (s : PaintCanvas) (pos : Point)
    (hc : s.circleMode = true) (h : s.currentLine = none) :
    (s.OnLeftDown pos).shapes
        = s.shapes ++ [Shape.circle ⟨pos, s.shapeSize, s.currentColor⟩] ∧
    (s.OnLeftDown pos).currentLine = none := by
  constructor <;> simp [PaintCanvas.OnLeftDown, hc, h]

theorem OnLeftDown_square_case (s : PaintCanvas) (pos : Point)
    (hc : s.circleMode = false) (hq : s.squareMode = true)
    (h : s.currentLine = none) :
    (s.OnLeftDown pos).shapes
        = s.shapes ++ [Shape.square ⟨pos, s.shapeSize, s.currentColor⟩] ∧
    (s.OnLeftDown pos).currentLine = none := by
  constructor <;> simp [PaintCanvas.OnLeftDown, hc, hq, h]

theorem OnLeftDown_freehand_case (s : PaintCanvas) (pos : Point)
    (hc : s.circleMode = false) (hq : s.squareMode = false) :
    (s.OnLeftDown pos).shapes = s.shapes ∧
    (s.OnLeftDown pos).currentLine
        = some ⟨[pos], if s.eraserMode then whiteColor else s.currentColor,
                if s.eraserMode then false else s.rainbowMode⟩ := by
  cases he : s.eraserMode <;>
    constructor <;>
      simp [PaintCanvas.OnLeftDown, hc, hq, he, FreehandLine.new, FreehandLine.AddPoint]

theorem gesture_from_drawing (d : PaintCanvas) (pup : Point) (ms : List MoveEvent)
    (hd : d.currentLine.isSome = true) :
    ((d.runMoves ms).OnLeftUp pup).shapes.length = d.shapes.length + 1 ∧
    ((d.runMoves ms).OnLeftUp pup).currentLine = none := by
  have h1 := runMoves_shapes d ms
  have h2 : (d.runMoves ms).currentLine.isSome = true := by
    rw [runMoves_isSome]; exact hd
  obtain ⟨l2, hl2⟩ := Option.isSome_iff_exists.mp h2
  obtain ⟨hs, hn⟩ := OnLeftUp_some (d.runMoves ms) pup l2 hl2
  refine ⟨?_, hn⟩
  rw [hs, h1]
  simp

theorem gesture_from_idle (d : PaintCanvas) (pup : Point) (ms : List MoveEvent)
    (hd : d.currentLine = none) :
    (d.runMoves ms).OnLeftUp pup = d := by
  rw [runMoves_none d ms hd, OnLeftUp_none d pup hd]

theorem runEvents_cons (s : PaintCanvas) (e : CanvasEvent) (evs : List CanvasEvent) :
    s.runEvents (e :: evs) = (s.stepEvent e).runEvents evs := rfl

theorem runEvents_line_stable (evs : List CanvasEvent) :
    ∀ s : PaintCanvas, ∀ l : FreehandLine,
      s.currentLine = some l → l.rainbowMode = false →
      ∃ l2, (s.runEvents evs).currentLine = some l2 ∧
        l2.color = l.color ∧ l2.rainbowMode = false := by
  induction evs with
  | nil => intro s l h hf; exact ⟨l, h, rfl, hf⟩
  | cons e rest ih =>
    intro s l h hf
    rw [runEvents_cons]
    cases e with
    | move m =>
      have hstep : (s.stepEvent (CanvasEvent.move m)).currentLine
          = some (l.AddPoint m.pos) := by
        simp [PaintCanvas.stepEvent, PaintCanvas.OnMouseMove, h,
              FreehandLine.UpdateRainbowColor, hf]
      exact ih _ (l.AddPoint m.pos) hstep hf
    | setColor c => exact ih _ l h hf
    | rainbowOn => exact ih _ l h hf
    | eraserOn => exact ih _ l h hf
    | circleOn => exact ih _ l h hf
    | squareOn => exact ih _ l h hf

/-! Claim theorems. -/

/-- C1, counterexample: the claim that every mode-setting operation clears
all other mode flags is false. `EnableEraserMode` leaves `rainbowMode`
untouched (it only clears the circle and square flags), so enabling
rainbow and then eraser leaves the rainbow flag set; symmetrically,
`EnableRainbowMode` leaves `eraserMode` set. -/
theorem claim1_counterexample :
    ((PaintCanvas.init.EnableRainbowMode).EnableEraserMode).rainbowMode = true ∧
    ((PaintCanvas.init.EnableEraserMode).EnableRainbowMode).eraserMode = true :=
  ⟨rfl, rfl⟩

/-- C1 (amended): `SetColor`, `EnableCircleMode` and `EnableSquareMode`
each clear all other mode flags, but `EnableRainbowMode` and
`EnableEraserMode` clear only the circle and square flags and leave the
other freehand flag (eraser, resp. rainbow) at its previous value; in
particular, after `EnableEraserMode` the circle and square flags are
false while the rainbow flag keeps its prior value. -/
theorem claim1_mode_flags_amended (s : PaintCanvas) (c : Color) :
    ((s.SetColor c).rainbowMode = false ∧ (s.SetColor c).eraserMode = false ∧
     (s.SetColor c).circleMode = false ∧ (s.SetColor c).squareMode = false) ∧
    (s.EnableCircleMode.circleMode = true ∧ s.EnableCircleMode.rainbowMode = false ∧
     s.EnableCircleMode.eraserMode = false ∧ s.EnableCircleMode.squareMode = false) ∧
    (s.EnableSquareMode.squareMode = true ∧ s.EnableSquareMode.rainbowMode = false ∧
     s.EnableSquareMode.eraserMode = false ∧ s.EnableSquareMode.circleMode = false) ∧
    (s.EnableRainbowMode.rainbowMode = true ∧ s.EnableRainbowMode.circleMode = false ∧
     s.EnableRainbowMode.squareMode = false ∧
     s.EnableRainbowMode.eraserMode = s.eraserMode) ∧
    (s.EnableEraserMode.eraserMode = true ∧ s.EnableEraserMode.circleMode = false ∧
     s.EnableEraserMode.squareMode = false ∧
     s.EnableEraserMode.rainbowMode = s.rainbowMode) :=
  ⟨⟨rfl, rfl, rfl, rfl⟩, ⟨rfl, rfl, rfl, rfl⟩, ⟨rfl, rfl, rfl, rfl⟩,
   ⟨rfl, rfl, rfl, rfl⟩, ⟨rfl, rfl, rfl, rfl⟩⟩

/-- C2: starting from an idle canvas (empty in-progress slot), any gesture
pointer-down, any number of pointer-moves, pointer-up leaves the document
with exactly one more committed shape and an empty in-progress slot; and
a pointer-up with the slot already empty leaves the whole state
unchanged. -/
theorem claim2_gesture_commits_one (s : PaintCanvas) (pdown pup : Point)
    (ms : List MoveEvent) (h : s.currentLine = none) :
    ((((s.OnLeftDown pdown).runMoves ms).OnLeftUp pup).shapes.length
        = s.shapes.length + 1) ∧
    (((s.OnLeftDown pdown).runMoves ms).OnLeftUp pup).currentLine = none ∧
    s.OnLeftUp pup = s := by
  refine ⟨?_, ?_, OnLeftUp_none s pup h⟩ <;>
  · cases hc : s.circleMode with
    | true =>
      obtain ⟨hs, hn⟩ := OnLeftDown_circle_case s pdown hc h
      rw [gesture_from_idle (s.OnLeftDown pdown) pup ms hn]
      first
        | (rw [hs]; simp)
        | exact hn
    | false =>
      cases hq : s.squareMode with
      | true =>
        obtain ⟨hs, hn⟩ := OnLeftDown_square_case s pdown hc hq h
        rw [gesture_from_idle (s.OnLeftDown pdown) pup ms hn]
        first
          | (rw [hs]; simp)
          | exact hn
      | false =>
        obtain ⟨hs, hn⟩ := OnLeftDown_freehand_case s pdown hc hq
        have hsome : (s.OnLeftDown pdown).currentLine.isSome = true := by
          rw [hn]; rfl
        obtain ⟨h1, h2⟩ := gesture_from_drawing (s.OnLeftDown pdown) pup ms hsome
        first
          | (rw [h1, hs])
          | exact h2

/-- C2 witness: a down-move-up gesture on the fresh canvas commits one
shape, and a bare pointer-up on the fresh canvas is a no-op. -/
theorem claim2_witness :
    (((PaintCanvas.init.OnLeftDown ⟨0, 0⟩).runMoves [⟨⟨1, 1⟩, 0, 0, 0⟩]).OnLeftUp
        ⟨2, 2⟩).shapes.length = 1 ∧
    PaintCanvas.init.OnLeftUp ⟨2, 2⟩ = PaintCanvas.init := by
  have h := claim2_gesture_commits_one PaintCanvas.init ⟨0, 0⟩ ⟨2, 2⟩
      [⟨⟨1, 1⟩, 0, 0, 0⟩] rfl
  exact ⟨h.1, h.2.2⟩

/-- C3: `AddPoint` appends its argument at the end of the point sequence
leaving earlier points unchanged; `Draw` emits exactly one polyline
primitive over the whole point sequence when it has at least two points
(whose segments connect consecutive points in order, N−1 of them), and
no drawing primitive at all when it has at most one point. -/
theorem claim3_freehand_render (l : FreehandLine) (p : Point) :
    (l.AddPoint p).points = l.points ++ [p] ∧
    (2 ≤ l.points.length →
      l.Draw.filter DCCommand.isDrawPrim = [DCCommand.drawLines l.points] ∧
      polylineSegments l.points = l.points.zip l.points.tail ∧
      (polylineSegments l.points).length + 1 = l.points.length) ∧
    (l.points.length ≤ 1 →
      l.Draw.filter DCCommand.isDrawPrim = []) := by
  refine ⟨rfl, ?_, ?_⟩
  · intro h
    have hgt : 1 < l.points.length := h
    refine ⟨?_, polylineSegments_eq_zip l.points, ?_⟩
    · simp [FreehandLine.Draw, hgt, DCCommand.isDrawPrim]
    · rw [polylineSegments_length]
      omega
  · intro h
    have hle : ¬ 1 < l.points.length := by omega
    simp [FreehandLine.Draw, hle, DCCommand.isDrawPrim]

/-- C3 witness: a two-point line emits exactly the polyline primitive; a
one-point line emits no drawing primitive. -/
theorem claim3_witness :
    (FreehandLine.Draw ⟨[⟨0, 0⟩, ⟨1, 1⟩], blackColor, false⟩).filter
        DCCommand.isDrawPrim = [DCCommand.drawLines [⟨0, 0⟩, ⟨1, 1⟩]] ∧
    (FreehandLine.Draw ⟨[⟨0, 0⟩], blackColor, false⟩).filter
        DCCommand.isDrawPrim = [] :=
  ⟨((claim3_freehand_render ⟨[⟨0, 0⟩, ⟨1, 1⟩], blackColor, false⟩ ⟨2, 2⟩).2.1
      (by decide)).1,
   (claim3_freehand_render ⟨[⟨0, 0⟩], blackColor, false⟩ ⟨2, 2⟩).2.2 (by decide)⟩

/-- C4: pointer-down while a stamp mode is active appends exactly one
shape of the fixed stamp size at the pointer position with the current
color and leaves the in-progress slot empty; a stamped circle's render
issues exactly one filled-circle primitive with the pointer position as
center and the stamp size as radius. -/
theorem claim4_stamp_click (s : PaintCanvas) (pos : Point)
    (h : s.currentLine = none) :
    (s.circleMode = true →
      (s.OnLeftDown pos).shapes
          = s.shapes ++ [Shape.circle ⟨pos, s.shapeSize, s.currentColor⟩] ∧
      (s.OnLeftDown pos).currentLine = none ∧
      (Circle.Draw ⟨pos, s.shapeSize, s.currentColor⟩).filter DCCommand.isDrawPrim
          = [DCCommand.drawCircle pos s.shapeSize]) ∧
    (s.circleMode = false → s.squareMode = true →
      (s.OnLeftDown pos).shapes
          = s.shapes ++ [Shape.square ⟨pos, s.shapeSize, s.currentColor⟩] ∧
      (s.OnLeftDown pos).currentLine = none) := by
  constructor
  · intro hc
    obtain ⟨hs, hn⟩ := OnLeftDown_circle_case s pos hc h
    exact ⟨hs, hn, rfl⟩
  · intro hc hq
    exact OnLeftDown_square_case s pos hc hq h

/-- C4 witness: stamping on a fresh canvas in circle mode appends one
circle of radius 50 at the click position and keeps the slot empty. -/
theorem claim4_witness :
    (PaintCanvas.init.EnableCircleMode.OnLeftDown ⟨3, 4⟩).shapes
        = [Shape.circle ⟨⟨3, 4⟩, 50, blackColor⟩] ∧
    (PaintCanvas.init.EnableCircleMode.OnLeftDown ⟨3, 4⟩).currentLine = none := by
  have h := (claim4_stamp_click PaintCanvas.init.EnableCircleMode ⟨3, 4⟩ rfl).1 rfl
  exact ⟨h.1, h.2.1⟩

/-- C5: `UpdateRainbowColor` replaces the stored color with the three
injected random draws reduced modulo 256 exactly when the line's rainbow
flag is set, leaving the points (and the flag) unchanged; with the flag
clear it leaves the entire line unchanged. -/
theorem claim5_rainbow_update (l : FreehandLine) (r1 r2 r3 : Nat) :
    (l.rainbowMode = true →
      (l.UpdateRainbowColor r1 r2 r3).color = ⟨r1 % 256, r2 % 256, r3 % 256⟩ ∧
      (l.UpdateRainbowColor r1 r2 r3).points = l.points ∧
      (l.UpdateRainbowColor r1 r2 r3).rainbowMode = l.rainbowMode) ∧
    (l.rainbowMode = false → l.UpdateRainbowColor r1 r2 r3 = l) := by
  constructor
  · intro h
    refine ⟨?_, ?_, ?_⟩ <;> simp [FreehandLine.UpdateRainbowColor, h]
  · intro h
    simp [FreehandLine.UpdateRainbowColor, h]

/-- C5 witness: with the flag set the color becomes the injected draws
modulo 256; with the flag clear the line is untouched. -/
theorem claim5_witness :
    ((FreehandLine.mk [] ⟨1, 2, 3⟩ true).UpdateRainbowColor 300 257 6).color
        = ⟨44, 1, 6⟩ ∧
    (FreehandLine.mk [⟨0, 0⟩] ⟨1, 2, 3⟩ false).UpdateRainbowColor 300 257 6
        = FreehandLine.mk [⟨0, 0⟩] ⟨1, 2, 3⟩ false :=
  ⟨((claim5_rainbow_update ⟨[], ⟨1, 2, 3⟩, true⟩ 300 257 6).1 rfl).1,
   (claim5_rainbow_update ⟨[⟨0, 0⟩], ⟨1, 2, 3⟩, false⟩ 300 257 6).2 rfl⟩

/-- C6: a repaint renders the committed shapes in insertion order
followed by the in-progress line on top (when the transient circle and
square slots are empty, as they are in every reachable state), and every
mode- or color-setting operation leaves both the committed-shape list
and the emitted repaint unchanged. -/
theorem claim6_repaint_order (s : PaintCanvas) (c : Color)
    (h1 : s.currentCircle = none) (h2 : s.currentSquare = none) :
    s.OnPaint = (s.shapes.map Shape.Draw).flatten ++ drawOptLine s.currentLine ∧
    ((s.SetColor c).OnPaint = s.OnPaint ∧
     s.EnableRainbowMode.OnPaint = s.OnPaint ∧
     s.EnableEraserMode.OnPaint = s.OnPaint ∧
     s.EnableCircleMode.OnPaint = s.OnPaint ∧
     s.EnableSquareMode.OnPaint = s.OnPaint) ∧
    ((s.SetColor c).shapes = s.shapes ∧
     s.EnableRainbowMode.shapes = s.shapes ∧
     s.EnableEraserMode.shapes = s.shapes ∧
     s.EnableCircleMode.shapes = s.shapes ∧
     s.EnableSquareMode.shapes = s.shapes) := by
  refine ⟨?_, ⟨rfl, rfl, rfl, rfl, rfl⟩, ⟨rfl, rfl, rfl, rfl, rfl⟩⟩
  simp [PaintCanvas.OnPaint, h1, h2, drawOptCircle, drawOptSquare]

/-- C6 witness: the fresh canvas repaints to the empty command list. -/
theorem claim6_witness : PaintCanvas.init.OnPaint = [] := by
  have h := (claim6_repaint_order PaintCanvas.init blackColor rfl rfl).1
  simpa [PaintCanvas.init, drawOptLine] using h

/-- C7: a pointer-move with no in-progress line leaves the entire canvas
state unchanged (document, slot, mode flags and color); while a line is
in progress and the canvas rainbow flag is set, a pointer-move first
applies `UpdateRainbowColor` to the line and then appends the pointer
position. -/
theorem claim7_mousemove (s : PaintCanvas) (pos : Point) (r1 r2 r3 : Nat)
    (l : FreehandLine) :
    (s.currentLine = none → s.OnMouseMove pos r1 r2 r3 = s) ∧
    (s.currentLine = some l → s.rainbowMode = true →
      (s.OnMouseMove pos r1 r2 r3).currentLine
          = some ((l.UpdateRainbowColor r1 r2 r3).AddPoint pos)) := by
  constructor
  · exact OnMouseMove_none s pos r1 r2 r3
  · intro h hr
    simp [PaintCanvas.OnMouseMove, h, hr]

/-- C7 witness: a move on the fresh (idle) canvas is the identity, and a
move during a rainbow stroke updates the color before appending. -/
theorem claim7_witness :
    PaintCanvas.init.OnMouseMove ⟨1, 1⟩ 0 0 0 = PaintCanvas.init ∧
    (({ PaintCanvas.init with
          currentLine := some (FreehandLine.new blackColor true)
          rainbowMode := true } : PaintCanvas).OnMouseMove ⟨1, 1⟩ 7 8 9).currentLine
      = some (((FreehandLine.new blackColor true).UpdateRainbowColor 7 8 9).AddPoint
          ⟨1, 1⟩) :=
  ⟨(claim7_mousemove PaintCanvas.init ⟨1, 1⟩ 0 0 0
      (FreehandLine.new blackColor true)).1 rfl,
   (claim7_mousemove { PaintCanvas.init with
        currentLine := some (FreehandLine.new blackColor true)
        rainbowMode := true } ⟨1, 1⟩ 7 8 9 (FreehandLine.new blackColor true)).2
      rfl rfl⟩

/-- C8: pointer-down with no stamp mode active starts an in-progress
FreehandLine whose color is the fixed eraser white in eraser mode and
the current color otherwise, whose single point is the pointer position,
while the committed document is untouched; the slot becomes non-empty. -/
theorem claim8_freehand_click (s : PaintCanvas) (pos : Point)
    (hc : s.circleMode = false) (hq : s.squareMode = false) :
    (s.OnLeftDown pos).shapes = s.shapes ∧
    (s.OnLeftDown pos).currentLine
        = some ⟨[pos], if s.eraserMode then whiteColor else s.currentColor,
                if s.eraserMode then false else s.rainbowMode⟩ :=
  OnLeftDown_freehand_case s pos hc hq

/-- C8 witness: a pointer-down on the fresh canvas in eraser mode starts
a white, non-rainbow stroke at the click position with no committed
shape. -/
theorem claim8_witness :
    (PaintCanvas.init.EnableEraserMode.OnLeftDown ⟨2, 3⟩).shapes = [] ∧
    (PaintCanvas.init.EnableEraserMode.OnLeftDown ⟨2, 3⟩).currentLine
        = some ⟨[⟨2, 3⟩], whiteColor, false⟩ := by
  have h := claim8_freehand_click PaintCanvas.init.EnableEraserMode ⟨2, 3⟩ rfl rfl
  exact ⟨h.1, h.2⟩

/-- C9: a line in progress whose own rainbow flag is false (as every
eraser stroke is constructed) keeps its construction color through any
sequence of pointer-moves and mode/color operations, even if rainbow
mode is enabled on the canvas mid-stroke: the slot stays occupied by a
line with the original color and a still-false flag. -/
theorem claim9_color_stable (s : PaintCanvas) (l : FreehandLine)
    (evs : List CanvasEvent) (h : s.currentLine = some l)
    (hf : l.rainbowMode = false) :
    (s.runEvents evs).currentLine.map FreehandLine.color = some l.color ∧
    (s.runEvents evs).currentLine.map FreehandLine.rainbowMode = some false := by
  obtain ⟨l2, h2, hcol, hflag⟩ := runEvents_line_stable evs s l h hf
  rw [h2]
  simp [hcol, hflag]

/-- C9 witness: a white eraser stroke keeps color white and flag false
across enabling rainbow mode and a further pointer-move. -/
theorem claim9_witness :
    ((({ PaintCanvas.init with
          currentLine := some ⟨[⟨0, 0⟩], whiteColor, false⟩ } : PaintCanvas).runEvents
        [CanvasEvent.rainbowOn, CanvasEvent.move ⟨⟨5, 5⟩, 9, 9, 9⟩]).currentLine.map
        FreehandLine.color = some whiteColor) ∧
    ((({ PaintCanvas.init with
          currentLine := some ⟨[⟨0, 0⟩], whiteColor, false⟩ } : PaintCanvas).runEvents
        [CanvasEvent.rainbowOn, CanvasEvent.move ⟨⟨5, 5⟩, 9, 9, 9⟩]).currentLine.map
        FreehandLine.rainbowMode = some false) :=
  claim9_color_stable { PaintCanvas.init with
      currentLine := some ⟨[⟨0, 0⟩], whiteColor, false⟩ }
    ⟨[⟨0, 0⟩], whiteColor, false⟩
    [CanvasEvent.rainbowOn, CanvasEvent.move ⟨⟨5, 5⟩, 9, 9, 9⟩] rfl rfl

/-- C10: the freshly constructed canvas has all four mode flags false,
stamp size 50, black current color, an empty document and an empty
in-progress slot, and the first pointer-down on it starts a black
non-rainbow freehand stroke at the click position. -/
theorem claim10_initial_state (pos : Point) :
    PaintCanvas.init.rainbowMode = false ∧
    PaintCanvas.init.eraserMode = false ∧
    PaintCanvas.init.circleMode = false ∧
    PaintCanvas.init.squareMode = false ∧
    PaintCanvas.init.shapeSize = 50 ∧
    PaintCanvas.init.shapes = [] ∧
    PaintCanvas.init.currentLine = none ∧
    PaintCanvas.init.currentColor = blackColor ∧
    (PaintCanvas.init.OnLeftDown pos).currentLine
        = some ⟨[pos], blackColor, false⟩ ∧
    (PaintCanvas.init.OnLeftDown pos).shapes = [] := by
  refine ⟨rfl, rfl, rfl, rfl, rfl, rfl, rfl, rfl, ?_, ?_⟩
  · exact (OnLeftDown_freehand_case PaintCanvas.init pos rfl rfl).2
  · exact (OnLeftDown_freehand_case PaintCanvas.init pos rfl rfl).1

end PaintApp
